import Mathlib

/-!
Verification of the media output engine (`libobs/obs-output.c`): a shallow
embedding of the packet interleaver, the pause controller, the caption
injector, the reconnect controller and the stop/mixer entry points, with
theorems about the properties stated in the specification.

Machine integers (`int64_t`, `uint64_t`, `uint32_t`, `size_t`) are modelled
by `Int`/`Nat`; C integer division on `int64_t` truncates toward zero and is
modelled by `Int.tdiv`.  The concrete scenarios below stay far away from the
overflow boundaries, which is noted where it matters.
-/

/-- The `type` field of `struct encoder_packet` (`OBS_ENCODER_VIDEO` /
`OBS_ENCODER_AUDIO`). -/
inductive PacketType where
  | video
  | audio
deriving DecidableEq, Repr

/-- The fields of `struct encoder_packet` that the output engine reads:
`type`, `track_idx`, `pts`, `dts`, `timebase_num`, `timebase_den`,
`dts_usec`, `keyframe` and `priority`.  The payload buffer is not modelled
(the interleaver never reads it; caption injection, which rewrites it, is
modelled separately at the level of the caption queues). -/
structure Packet where
  ptype : PacketType
  track_idx : Nat
  pts : Int
  dts : Int
  timebase_num : Int
  timebase_den : Int
  dts_usec : Int
  keyframe : Bool
  priority : Int
deriving DecidableEq, Repr

instance : Inhabited Packet :=
  ⟨⟨PacketType.video, 0, 0, 0, 1, 1, 0, true, 0⟩⟩

/-- Modelled from the spec: `packet_dts_usec` lives in `obs-internal.h`,
which is not among the sources; the glossary defines `dts_usec` as
`dts · 1e6 · num / den` (C `int64_t` division truncating toward zero). -/
def packet_dts_usec (p : Packet) : Int :=
  Int.tdiv (p.dts * 1000000 * p.timebase_num) p.timebase_den

/-- The interleaver-related fields of `struct obs_output`
(`obs-internal.h`): the ordered packet buffer, the reception flags, the
per-type high-water marks and the rebase offsets.  `audio_offsets` is the
`audio_offsets[MAX_AUDIO_MIXES]` array, modelled as a function from track
index to offset. -/
structure InterleaveState where
  interleaved_packets : List Packet
  received_video : Bool
  received_audio : Bool
  highest_video_ts : Int
  highest_audio_ts : Int
  video_offset : Int
  audio_offsets : Nat → Int

/-- Model of `check_received` (obs-output.c:1186): mark the stream of the incoming
packet's type as received. -/
def check_received (s : InterleaveState) (p : Packet) : InterleaveState :=
  match p.ptype with
  | PacketType.video => { s with received_video := true }
  | PacketType.audio => { s with received_audio := true }

/-- The offset subtraction of `apply_interleaved_packet_offset`
(obs-output.c:1198), factored over the two offset fields: subtract the
per-type offset from `dts` and `pts` and recompute `dts_usec`. -/
def apply_packet_offset (vo : Int) (ao : Nat → Int) (p : Packet) : Packet :=
  let offset := match p.ptype with
    | PacketType.video => vo
    | PacketType.audio => ao p.track_idx
  let q := { p with dts := p.dts - offset, pts := p.pts - offset }
  { q with dts_usec := packet_dts_usec q }

/-- Model of `apply_interleaved_packet_offset` (obs-output.c:1198). -/
def apply_interleaved_packet_offset (s : InterleaveState) (p : Packet) : Packet :=
  apply_packet_offset s.video_offset s.audio_offsets p

/-- Model of `has_higher_opposing_ts` (obs-output.c:1223): compare the packet's
`dts_usec` against the opposing type's high-water mark. -/
def has_higher_opposing_ts (s : InterleaveState) (p : Packet) : Bool :=
  match p.ptype with
  | PacketType.video => s.highest_audio_ts > p.dts_usec
  | PacketType.audio => s.highest_video_ts > p.dts_usec

/-- Model of `set_higher_ts` (obs-output.c:1378): raise the high-water mark of the
packet's own type. -/
def set_higher_ts (s : InterleaveState) (p : Packet) : InterleaveState :=
  match p.ptype with
  | PacketType.video =>
      if s.highest_video_ts < p.dts_usec then
        { s with highest_video_ts := p.dts_usec }
      else s
  | PacketType.audio =>
      if s.highest_audio_ts < p.dts_usec then
        { s with highest_audio_ts := p.dts_usec }
      else s

/-- The scan loop of `insert_interleaved_packet` (obs-output.c:1660): walk
left to right and stop at the first slot where the new packet's `dts_usec`
equals the current one's and the new packet is video, or where the new
packet's `dts_usec` is strictly smaller; insert there (at the end if the
loop runs out). -/
def insert_interleaved_packet : List Packet → Packet → List Packet
  | [], out => [out]
  | cur :: rest, out =>
      if (out.dts_usec == cur.dts_usec && out.ptype == PacketType.video)
          || out.dts_usec < cur.dts_usec then
        out :: cur :: rest
      else
        cur :: insert_interleaved_packet rest out

/-- Model of `resort_interleaved_packets` (obs-output.c:1679): rebuild the buffer by
re-inserting every packet in order into an empty array. -/
def resort_interleaved_packets (s : InterleaveState) : InterleaveState :=
  { s with interleaved_packets :=
      s.interleaved_packets.foldl insert_interleaved_packet [] }

/-- The packet-selection part of `send_interleaved` (obs-output.c:1330):
look at the head of the buffer; if a packet of the opposing type with a
strictly greater `dts_usec` has been seen (the high-water-mark guard), pop
the head and hand it to the sink's `encoded_packet` callback (the returned
packet).  Caption injection, which rewrites only the payload of the popped
video packet, is modelled separately by `send_interleaved_caption`. -/
def send_interleaved (s : InterleaveState) : InterleaveState × Option Packet :=
  match s.interleaved_packets with
  | [] => (s, none)
  | out :: rest =>
      if has_higher_opposing_ts s out then
        ({ s with interleaved_packets := rest }, some out)
      else
        (s, none)

/-- Model of `find_first_packet_type_idx` (obs-output.c:1514): index of the first
packet of the given type (and, for audio, the given track); the C `-1`
result is `none`. -/
def find_first_packet_type_idx (l : List Packet) (t : PacketType)
    (audio_idx : Nat) : Option Nat :=
  go l 0
where
  go : List Packet → Nat → Option Nat
    | [], _ => none
    | p :: rest, i =>
        if p.ptype = t ∧ (t = PacketType.audio → p.track_idx = audio_idx) then
          some i
        else
          go rest (i + 1)

/-- Model of `find_last_packet_type_idx` (obs-output.c:1535): index of the last
packet of the given type (and, for audio, the given track). -/
def find_last_packet_type_idx (l : List Packet) (t : PacketType)
    (audio_idx : Nat) : Option Nat :=
  go l 0 none
where
  go : List Packet → Nat → Option Nat → Option Nat
    | [], _, acc => acc
    | p :: rest, i, acc =>
        if p.ptype = t ∧ (t = PacketType.audio → p.track_idx = audio_idx) then
          go rest (i + 1) (some i)
        else
          go rest (i + 1) acc

/-- Model of `find_first_packet_type` (obs-output.c:1556), as the packet itself. -/
def find_first_packet_type (l : List Packet) (t : PacketType)
    (audio_idx : Nat) : Option Packet :=
  (find_first_packet_type_idx l t audio_idx).map fun i => l.getD i default

/-- Model of `find_last_packet_type` (obs-output.c:1564), as the packet itself. -/
def find_last_packet_type (l : List Packet) (t : PacketType)
    (audio_idx : Nat) : Option Packet :=
  (find_last_packet_type_idx l t audio_idx).map fun i => l.getD i default

/-- Model of `discard_to_idx` (obs-output.c:1470): release and drop the first `idx`
packets of the buffer. -/
def discard_to_idx (s : InterleaveState) (idx : Nat) : InterleaveState :=
  { s with interleaved_packets := s.interleaved_packets.drop idx }

/-- The audio scan of `get_interleaved_start_idx` (obs-output.c:1398):
walk the buffer, ignoring non-audio entries, and keep the index of the
audio packet whose `dts_usec` is closest (by `llabs`) to the first video
packet's; `closest` starts at `INT64_MAX` and `idx` at 0. -/
def closest_audio_idx : List Packet → Int → Nat → Int → Nat → Nat
  | [], _, _, _, idx => idx
  | p :: rest, vdts, i, closest, idx =>
      if p.ptype = PacketType.audio then
        let diff : Int := (p.dts_usec - vdts).natAbs
        if diff < closest then
          closest_audio_idx rest vdts (i + 1) diff i
        else
          closest_audio_idx rest vdts (i + 1) closest idx
      else
        closest_audio_idx rest vdts (i + 1) closest idx

/-- Model of `get_interleaved_start_idx` (obs-output.c:1398): the smaller of the
first-video index and the closest-audio index.  The C code dereferences the
first video packet; every caller runs it only when a video packet is
buffered, so the videoless case (where the model returns 0) is never
taken. -/
def get_interleaved_start_idx (l : List Packet) : Nat :=
  match find_first_packet_type_idx l PacketType.video 0 with
  | none => 0
  | some video_idx =>
      let vdts := (l.getD video_idx default).dts_usec
      let idx := closest_audio_idx l vdts 0 (2 ^ 63 - 1) 0
      if video_idx < idx then video_idx else idx

/-- The per-track loop of `prune_premature_packets` (obs-output.c:1447):
for each audio track in order, find its first packet (failing like the C
`-1` return if a track has none), update `max_idx` and `max_diff`, and keep
`diff` as the last track's difference.  Returns `(max_idx, max_diff, diff)`
on success. -/
def prune_audio_scan (l : List Packet) (video_dts_usec : Int) :
    List Nat → Nat → Int → Int → Option (Nat × Int × Int)
  | [], max_idx, max_diff, diff => some (max_idx, max_diff, diff)
  | i :: rest, max_idx, max_diff, _diff =>
      match find_first_packet_type_idx l PacketType.audio i with
      | none => none
      | some audio_idx =>
          let audio := l.getD audio_idx default
          let max_idx' := if audio_idx > max_idx then audio_idx else max_idx
          let d := audio.dts_usec - video_dts_usec
          let max_diff' := if d > max_diff then d else max_diff
          prune_audio_scan l video_dts_usec rest max_idx' max_diff' d

/-- Model of `prune_premature_packets` (obs-output.c:1427).  Note that the final
comparison against `duration_usec` uses `diff` — the difference computed
for the *last* audio track — and not the accumulated `max_diff`. -/
def prune_premature_packets (s : InterleaveState) (audio_mixes : Nat) :
    InterleaveState × Int :=
  match find_first_packet_type_idx s.interleaved_packets PacketType.video 0 with
  | none => ({ s with received_video := false }, -1)
  | some video_idx =>
      let video := s.interleaved_packets.getD video_idx default
      let duration_usec := Int.tdiv (video.timebase_num * 1000000) video.timebase_den
      match prune_audio_scan s.interleaved_packets video.dts_usec
          (List.range audio_mixes) video_idx 0 0 with
      | none => ({ s with received_audio := false }, -1)
      | some (max_idx, _max_diff, diff) =>
          (s, if diff > duration_usec then (max_idx : Int) + 1 else 0)

/-- Model of `prune_interleaved_packets` (obs-output.c:1483): on `-1` fail; on a
positive prune index discard up to it; on 0 discard up to the
closest-pair start index. -/
def prune_interleaved_packets (s : InterleaveState) (audio_mixes : Nat) :
    InterleaveState × Bool :=
  let (s1, prune_start) := prune_premature_packets s audio_mixes
  if prune_start = -1 then
    (s1, false)
  else
    let start_idx :=
      if prune_start ≠ 0 then prune_start.toNat
      else get_interleaved_start_idx s1.interleaved_packets
    if start_idx ≠ 0 then (discard_to_idx s1 start_idx, true) else (s1, true)

/-- The per-track first-audio collection of `get_audio_and_video_packets`
(obs-output.c:1581). -/
def collect_audio_firsts (l : List Packet) : List Nat → Option (List Packet)
  | [] => some []
  | i :: rest =>
      match find_first_packet_type l PacketType.audio i with
      | none => none
      | some a =>
          match collect_audio_firsts l rest with
          | none => none
          | some as' => some (a :: as')

/-- Model of `get_audio_and_video_packets` (obs-output.c:1572): locate the first
video packet and the first packet of every audio track, clearing the
corresponding reception flag for whichever is missing. -/
def get_audio_and_video_packets (s : InterleaveState) (audio_mixes : Nat) :
    InterleaveState × Option (Packet × List Packet) :=
  let vOpt := find_first_packet_type s.interleaved_packets PacketType.video 0
  let s1 := if vOpt.isSome then s else { s with received_video := false }
  match collect_audio_firsts s.interleaved_packets (List.range audio_mixes) with
  | none => ({ s1 with received_audio := false }, none)
  | some as' =>
      match vOpt with
      | none => (s1, none)
      | some v => (s1, some (v, as'))

/-- The function `initialize_interleaved_packets` (obs-output.c:1596): locate the
first-per-track packets, require audio to extend past the first video
packet, discard up to the closest-pair start index, capture the offsets
(`video_offset` from the video `pts`, `audio_offsets[i]` from the track's
first `dts`), rebase the high-water marks, and apply the offsets to every
buffered packet. -/
def init_interleaved_packets (s : InterleaveState) (audio_mixes : Nat) :
    InterleaveState × Bool :=
  match get_audio_and_video_packets s audio_mixes with
  | (s1, none) => (s1, false)
  | (s1, some (video, audios)) =>
      let last_audios := (List.range audio_mixes).map fun i =>
        (find_last_packet_type s1.interleaved_packets PacketType.audio i).getD default
      if last_audios.any fun a => a.dts_usec < video.dts_usec then
        ({ s1 with received_audio := false }, false)
      else
        let start_idx := get_interleaved_start_idx s1.interleaved_packets
        let (s2, pkts) :=
          if start_idx ≠ 0 then
            get_audio_and_video_packets (discard_to_idx s1 start_idx) audio_mixes
          else (s1, some (video, audios))
        match pkts with
        | none => (s2, false)
        | some (video, audios) =>
            let s3 := { s2 with
              video_offset := video.pts,
              audio_offsets := fun i =>
                if i < audio_mixes then (audios.getD i default).dts
                else s2.audio_offsets i,
              highest_audio_ts :=
                if audio_mixes > 0 then
                  s2.highest_audio_ts - (audios.getD 0 default).dts_usec
                else s2.highest_audio_ts,
              highest_video_ts := s2.highest_video_ts - video.dts_usec }
            ({ s3 with interleaved_packets :=
                s3.interleaved_packets.map (apply_interleaved_packet_offset s3) },
             true)

/-- Model of `discard_unused_audio_packets` (obs-output.c:1693): drop every buffered
packet with `dts_usec` below the given bound. -/
def discard_unused_audio_packets (s : InterleaveState) (dts_usec : Int) :
    InterleaveState :=
  let idx := s.interleaved_packets.findIdx fun p => p.dts_usec ≥ dts_usec
  if idx ≠ 0 then discard_to_idx s idx else s

/-- Model of `interleave_packets` (obs-output.c:1710), the per-packet callback on
the active path.  `audio_mixes` is `num_audio_mixes(output)`; the audio
`track_idx` resolution by encoder identity is modelled by the packet
carrying its track index; the delay-buffer clone/move distinction only
affects ownership and is not modelled.  Returns the new state and the
packet handed to the sink, if any. -/
def interleave_packets (s : InterleaveState) (audio_mixes : Nat) (packet : Packet) :
    InterleaveState × Option Packet :=
  if ¬s.received_video ∧ packet.ptype = PacketType.video ∧ ¬packet.keyframe then
    (discard_unused_audio_packets s packet.dts_usec, none)
  else
    let was_started := s.received_audio && s.received_video
    let out := if was_started then apply_interleaved_packet_offset s packet else packet
    let s1 := if was_started then s else check_received s packet
    let s2 := { s1 with
      interleaved_packets := insert_interleaved_packet s1.interleaved_packets out }
    let s3 := set_higher_ts s2 out
    if s3.received_audio && s3.received_video then
      if was_started then
        send_interleaved s3
      else
        let (s4, ok) := prune_interleaved_packets s3 audio_mixes
        if ok then
          let (s5, ok2) := init_interleaved_packets s4 audio_mixes
          if ok2 then send_interleaved (resort_interleaved_packets s5)
          else (s5, none)
        else (s4, none)
    else (s3, none)

/-- Feed a sequence of packets through `interleave_packets`, collecting the
packets handed to the sink in order. -/
def run_interleaver (s : InterleaveState) (audio_mixes : Nat) :
    List Packet → InterleaveState × List Packet
  | [] => (s, [])
  | p :: ps =>
      let r := interleave_packets s audio_mixes p
      let r2 := run_interleaver r.1 audio_mixes ps
      (r2.1, r.2.toList ++ r2.2)

/-- The zeroed interleaver state established by `reset_packet_data`
(obs-output.c:1922) when data capture begins. -/
def initial_interleave_state : InterleaveState :=
  { interleaved_packets := []
    received_video := false
    received_audio := false
    highest_video_ts := 0
    highest_audio_ts := 0
    video_offset := 0
    audio_offsets := fun _ => 0 }

/-! ## Pause controller (obs-output.c:562) -/

/-- Model of `struct pause_data` (`obs-internal.h` fields used by obs-output.c):
`ts_start`, `ts_end`, `ts_offset`, `last_video_ts`, all `uint64_t`
nanosecond timestamps. -/
structure PauseData where
  ts_start : Nat
  ts_end : Nat
  ts_offset : Nat
  last_video_ts : Nat
deriving DecidableEq, Repr

/-- Model of `get_closest_v_ts` (obs-output.c:570): quantize the current wall-clock
time `now` (`os_gettime_ns()`) onto the video frame grid anchored at
`last_video_ts`, two intervals ahead.  `uint64_t` wraparound is not
modelled: every use here has `now ≥ last_video_ts` and values far below
`2^64`. -/
def get_closest_v_ts (pause : PauseData) (interval now : Nat) : Nat :=
  pause.last_video_ts +
    ((now - pause.last_video_ts + interval * 2) / interval) * interval

/-- Model of `end_pause` (obs-output.c:562): close the open pause window and add its
length to `ts_offset`. -/
def end_pause (p : PauseData) (ts : Nat) : PauseData :=
  if p.ts_end = 0 then
    { p with ts_end := ts, ts_offset := p.ts_offset + (ts - p.ts_start) }
  else p

/-- Model of `pause_can_start` (obs-output.c:580). -/
def pause_can_start (p : PauseData) : Bool :=
  p.ts_start = 0 && p.ts_end = 0

/-- Model of `pause_can_stop` (obs-output.c:585). -/
def pause_can_stop (p : PauseData) : Bool :=
  p.ts_start ≠ 0 && p.ts_end = 0

/-- Model of `obs_raw_output_pause` (obs-output.c:667): begin or end a pause on the
output's own pause data at the quantized timestamp. -/
def obs_raw_output_pause (p : PauseData) (interval now : Nat) (pause : Bool) :
    PauseData × Bool :=
  let closest_v_ts := get_closest_v_ts p interval now
  if pause then
    if pause_can_start p then ({ p with ts_start := closest_v_ts }, true)
    else (p, false)
  else
    if pause_can_stop p then (end_pause p closest_v_ts, true)
    else (p, false)

/-- The `paused` flag and pause data of one encoder, as touched by
`obs_encoded_output_pause`. -/
structure EncoderPauseState where
  paused : Bool
  pause : PauseData
deriving DecidableEq, Repr

/-- Model of `obs_encoded_output_pause` (obs-output.c:590): with all pause mutexes
held, validate `pause_can_start`/`pause_can_stop` on the video encoder and
every bound audio encoder, then mutate them all at the same quantized
timestamp (taken from the video encoder's pause data); fail without
mutating if any precondition check fails. -/
def obs_encoded_output_pause (venc : EncoderPauseState)
    (aencs : List (Option EncoderPauseState)) (interval now : Nat)
    (pause : Bool) :
    (EncoderPauseState × List (Option EncoderPauseState)) × Bool :=
  let closest_v_ts := get_closest_v_ts venc.pause interval now
  if pause then
    if pause_can_start venc.pause
        && aencs.all (fun a => match a with
            | none => true
            | some e => pause_can_start e.pause) then
      (({ paused := true, pause := { venc.pause with ts_start := closest_v_ts } },
        aencs.map (fun a => a.map fun e =>
          { paused := true, pause := { e.pause with ts_start := closest_v_ts } })),
       true)
    else ((venc, aencs), false)
  else
    if pause_can_stop venc.pause
        && aencs.all (fun a => match a with
            | none => true
            | some e => pause_can_stop e.pause) then
      (({ paused := false, pause := end_pause venc.pause closest_v_ts },
        aencs.map (fun a => a.map fun e =>
          { paused := false, pause := end_pause e.pause closest_v_ts })),
       true)
    else ((venc, aencs), false)

/-- The fields of `struct obs_output` read or written by
`obs_output_pause` (obs-output.c:688): validity of the handle, the
`OBS_OUTPUT_CAN_PAUSE` and `OBS_OUTPUT_ENCODED` flags, the `active` and
`paused` atomics, the output's own pause data (raw path) and the bound
encoders' pause state (encoded path). -/
structure PauseOutputState where
  valid : Bool
  can_pause_flag : Bool
  encoded_flag : Bool
  active : Bool
  paused : Bool
  pause : PauseData
  venc : EncoderPauseState
  aencs : List (Option EncoderPauseState)
deriving DecidableEq, Repr

/-- Model of `obs_output_pause` (obs-output.c:688).  Returns the new state, the
boolean result, and the emitted signal (`some true` = "pause",
`some false` = "unpause", `none` = no signal). -/
def obs_output_pause (s : PauseOutputState) (pause : Bool)
    (interval now : Nat) : PauseOutputState × Bool × Option Bool :=
  if ¬s.valid then (s, false, none)
  else if ¬s.can_pause_flag then (s, false, none)
  else if ¬s.active then (s, false, none)
  else if s.paused == pause then (s, true, none)
  else
    let (s1, success) :=
      if s.encoded_flag then
        let ((v', a'), ok) := obs_encoded_output_pause s.venc s.aencs interval now pause
        ({ s with venc := v', aencs := a' }, ok)
      else
        let (p', ok) := obs_raw_output_pause s.pause interval now pause
        ({ s with pause := p' }, ok)
    if success then ({ s1 with paused := pause }, true, some pause)
    else (s1, false, none)

/-! ## Caption injector (obs-output.c:1234 and 1342) -/

/-- One entry of the `caption_head` text queue (`struct caption_text`):
the text line and its `display_duration` in seconds.  The C doubles are
exact on every value used here (small dyadic rationals), so real
arithmetic is modelled by `Rat`. -/
structure CaptionEntry where
  text : String
  display_duration : Rat
deriving DecidableEq, Repr

/-- The caption fields of `struct obs_output`: the text FIFO
`caption_head`, the byte size of the raw CEA-708 triple queue
`caption_data` (its contents only shape the SEI payload, which is not
modelled), and `caption_timestamp`. -/
structure CaptionState where
  caption_head : List CaptionEntry
  caption_data_size : Nat
  caption_timestamp : Rat
deriving DecidableEq, Repr

/-- Model of `add_caption` (obs-output.c:1234) at queue level: fail on
`priority > 1`; otherwise build an SEI — from the raw CEA-708 queue if it
is non-empty (draining it), else from the head text line (popping it, or
rendering an empty frame if both queues are empty) — append it to the
packet, and succeed. -/
def add_caption (cs : CaptionState) (priority : Int) : CaptionState × Bool :=
  if priority > 1 then (cs, false)
  else if cs.caption_data_size > 0 then
    ({ cs with caption_data_size := 0 }, true)
  else
    match cs.caption_head with
    | [] => (cs, true)
    | _ :: rest => ({ cs with caption_head := rest }, true)

/-- The `frame_timestamp` computed in `send_interleaved`
(obs-output.c:1347): `(pts · timebase_num) / timebase_den` in seconds. -/
def frame_timestamp_of (pts num den : Int) : Rat :=
  ((pts * num : Int) : Rat) / ((den : Int) : Rat)

/-- The caption branch of `send_interleaved` (obs-output.c:1342) for a
popped video packet: if the text queue is non-empty and
`caption_timestamp ≤ frame_timestamp`, call `add_caption` and on success
advance `caption_timestamp` to `frame_timestamp + display_duration` (read
from the head before the call); afterwards, if the raw queue is still
non-empty and the module-scalar `last_caption_timestamp` is below the
frame, bump it and inject the raw captions.  Returns the new caption
state, the new `last_caption_timestamp`, and whether the first (text-queue
guarded) branch appended an SEI. -/
def send_interleaved_caption (cs : CaptionState) (last_caption_timestamp : Rat)
    (pts num den priority : Int) : CaptionState × Rat × Bool :=
  let frame_ts := frame_timestamp_of pts num den
  let (cs1, textAdded) :=
    match cs.caption_head with
    | [] => (cs, false)
    | e :: _ =>
        if cs.caption_timestamp ≤ frame_ts then
          let (cs', ok) := add_caption cs priority
          if ok then
            ({ cs' with caption_timestamp := frame_ts + e.display_duration }, true)
          else (cs', false)
        else (cs, false)
  if cs1.caption_data_size > 0 then
    if last_caption_timestamp < frame_ts then
      ((add_caption cs1 priority).1, frame_ts, textAdded)
    else (cs1, last_caption_timestamp, textAdded)
  else (cs1, last_caption_timestamp, textAdded)

/-! ## Reconnect controller and stop signalling (obs-output.c:2337-2491) -/

/-- Modelled from the spec: the stop codes of `obs-defs.h` (§6 of the
spec); only `success` and `disconnected` are compared against by the code
under study. -/
inductive StopCode where
  | success
  | bad_path
  | connect_failed
  | invalid_stream
  | error
  | disconnected
  | unsupported
  | no_space
  | encode_error
  | hdr_disabled
deriving DecidableEq, Repr

/-- Model of `RECONNECT_RETRY_MAX_MSEC` (obs-output.c:30). -/
def RECONNECT_RETRY_MAX_MSEC : Nat := 15 * 60 * 1000

/-- The state-machine fields of `struct obs_output` read or written by
`obs_output_signal_stop`, `output_reconnect` and
`obs_output_end_data_capture_internal`.  The detached
`end_data_capture_thread` teardown (which clears `active`) is modelled as
taking effect atomically with the call. -/
structure OutputState where
  valid : Bool
  active : Bool
  data_active : Bool
  reconnecting : Bool
  delay_active : Bool
  delay_capturing : Bool
  delay_restart_refs : Int
  stop_code : StopCode
  reconnect_retry_max : Nat
  reconnect_retries : Nat
  reconnect_retry_cur_msec : Nat
  reconnect_retry_sec : Nat
  reconnect_retry_exp : Rat
deriving DecidableEq, Repr

/-- The tail of `obs_output_end_data_capture_internal` (obs-output.c:2365):
clear `data_active`, run the teardown worker (which clears `active`), and
emit the `stop` signal carrying the current `stop_code` if requested,
resetting `stop_code` to `SUCCESS` afterwards.  The second component is
the code carried by the emitted `stop` signal, if one was emitted. -/
def end_capture_finish (s : OutputState) (signal : Bool) :
    OutputState × Option StopCode :=
  let s1 := { s with data_active := false, active := false }
  if signal then ({ s1 with stop_code := StopCode.success }, some s1.stop_code)
  else (s1, none)

/-- Model of `obs_output_end_data_capture_internal` (obs-output.c:2337): on an
inactive output only the optional `stop` signal is emitted; with an active
delay, capture stops and, while `delay_restart_refs` is non-zero, the call
returns early (keeping `data_active` set and emitting nothing). -/
def obs_output_end_data_capture_internal (s : OutputState) (signal : Bool) :
    OutputState × Option StopCode :=
  if ¬s.valid then (s, none)
  else if ¬(s.active ∧ s.data_active) then
    if signal then ({ s with stop_code := StopCode.success }, some s.stop_code)
    else (s, none)
  else if s.delay_active then
    let s1 := { s with delay_capturing := false }
    if s1.delay_restart_refs ≠ 0 then (s1, none)
    else end_capture_finish { s1 with delay_active := false } signal
  else end_capture_finish s signal

/-- Model of `obs_output_end_data_capture` (obs-output.c:2390). -/
def obs_output_end_data_capture (s : OutputState) : OutputState × Option StopCode :=
  obs_output_end_data_capture_internal s true

/-- The exponential-backoff update of `output_reconnect`
(obs-output.c:2438): `reconnect_retry_cur_msec` is multiplied by the
exponent, converted back to `uint32_t` (truncation toward zero; the cast
is in range in every scenario here), and clamped to
`RECONNECT_RETRY_MAX_MSEC`. -/
def reconnect_bump (exp : Rat) (cur : Nat) : Nat :=
  let c := (Int.floor ((cur : Rat) * exp)).toNat % 2 ^ 32
  if c > RECONNECT_RETRY_MAX_MSEC then RECONNECT_RETRY_MAX_MSEC else c

/-- Model of `output_reconnect` (obs-output.c:2414).  Returns the new state, the
delay (msec) of the scheduled retry if a reconnect worker was started
(`pthread_create` is modelled as succeeding), and the code carried by a
`stop` signal if the controller gave up instead. -/
def output_reconnect (s : OutputState) :
    OutputState × Option Nat × Option StopCode :=
  let s1 :=
    if ¬s.reconnecting then
      { s with reconnect_retry_cur_msec := s.reconnect_retry_sec * 1000,
               reconnect_retries := 0 }
    else s
  if s1.reconnect_retries ≥ s1.reconnect_retry_max then
    let s2 := { s1 with stop_code := StopCode.disconnected, reconnecting := false }
    let s3 := if s2.delay_active then { s2 with delay_active := false } else s2
    let r := obs_output_end_data_capture s3
    (r.1, none, r.2)
  else
    let s2 := if ¬s1.reconnecting then { s1 with reconnecting := true } else s1
    let s3 :=
      if s2.reconnect_retries ≠ 0 then
        { s2 with reconnect_retry_cur_msec :=
            reconnect_bump s2.reconnect_retry_exp s2.reconnect_retry_cur_msec }
      else s2
    let s4 := { s3 with reconnect_retries := s3.reconnect_retries + 1,
                        stop_code := StopCode.disconnected }
    (s4, some s4.reconnect_retry_cur_msec, none)

/-- Model of `can_reconnect` (obs-output.c:2466). -/
def can_reconnect (s : OutputState) (code : StopCode) : Bool :=
  (s.reconnecting && code ≠ StopCode.success)
    || (s.reconnect_retry_max ≠ 0 && code = StopCode.disconnected)

/-- Model of `obs_output_signal_stop` (obs-output.c:2474).  Returns the new state,
the delay of a scheduled reconnect if one was started, and the code
carried by an emitted `stop` signal if one was emitted. -/
def obs_output_signal_stop (s : OutputState) (code : StopCode) :
    OutputState × Option Nat × Option StopCode :=
  if ¬s.valid then (s, none, none)
  else
    let s1 := { s with stop_code := code }
    if can_reconnect s1 code then
      let s2 :=
        if s1.delay_active then
          { s1 with delay_restart_refs := s1.delay_restart_refs + 1 }
        else s1
      output_reconnect (obs_output_end_data_capture_internal s2 false).1
    else
      let s2 := if s1.delay_active then { s1 with delay_active := false } else s1
      let r := obs_output_end_data_capture s2
      (r.1, none, r.2)

/-! ## Mixer setters (obs-output.c:781 and 798) -/

/-- The fields of `struct obs_output` touched by the mixer setters. -/
structure MixerState where
  valid : Bool
  active : Bool
  mixer_mask : Nat
deriving DecidableEq, Repr

/-- Model of `obs_output_set_mixer` (obs-output.c:781): on a valid, non-active
output set `mixer_mask` to the single bit `1 << mixer_idx`; on an active
output do nothing. -/
def obs_output_set_mixer (s : MixerState) (mixer_idx : Nat) : MixerState :=
  if ¬s.valid then s
  else if ¬s.active then { s with mixer_mask := 2 ^ mixer_idx }
  else s

/-- Model of `obs_output_set_mixers` (obs-output.c:798): on a valid output set
`mixer_mask` to the given mask — there is no `active` check. -/
def obs_output_set_mixers (s : MixerState) (mixers : Nat) : MixerState :=
  if ¬s.valid then s
  else { s with mixer_mask := mixers }

/-! ## Concrete packets used by the scenario theorems -/

/-- A video packet with a 1/1000000 timebase, so that `dts_usec = dts`
exactly (under any integer-division convention). -/
def usecV (dts : Int) : Packet :=
  ⟨PacketType.video, 0, dts, dts, 1, 1000000, dts, true, 0⟩

/-- An audio packet on the given track with a 1/1000000 timebase. -/
def usecA (track : Nat) (dts : Int) : Packet :=
  ⟨PacketType.audio, track, dts, dts, 1, 1000000, dts, true, 0⟩

/-! ## Claim C2 — the pruning decision (obs-output.c:1427) -/

/-- The buffer state for the C2 failing input: two audio tracks, first
video at `dts_usec` 0 (timebase 1/30, so one frame is 33333 µs), track-1
audio at 0, track-0 audio at 100000. -/
def c2_state : InterleaveState :=
  { initial_interleave_state with
      interleaved_packets :=
        [⟨PacketType.video, 0, 0, 0, 1, 30, 0, true, 0⟩, usecA 1 0, usecA 0 100000],
      received_video := true,
      received_audio := true }

/-- Claim C2 (code-bug exhibit).  On a buffer where track 0's first audio
packet sits 100000 µs after the first video packet (max_diff = 100000,
above the 33333 µs frame duration) but track 1's difference is 0, the
per-track scan accumulates `max_diff = 100000` yet
`prune_premature_packets` returns 0 (no discard), because the final
comparison at obs-output.c:1467 tests `diff` — the last track's
difference — instead of the computed `max_diff`.  The claim (and the
otherwise-unused `max_diff` accumulator) calls for discarding up to the
last first-per-track index (`max_idx + 1 = 3`). -/
theorem prune_premature_ignores_max_diff :
    prune_audio_scan c2_state.interleaved_packets 0 (List.range 2) 0 0 0
      = some (2, 100000, 0)
    ∧ Int.tdiv (1 * 1000000) 30 = 33333
    ∧ (100000 : Int) > 33333
    ∧ (prune_premature_packets c2_state 2).2 = 0
    ∧ (prune_interleaved_packets c2_state 2).1.interleaved_packets
        = c2_state.interleaved_packets := by
  refine ⟨by decide, by decide, by decide, by decide, by decide⟩

/-! ## Claim C3 — scenario S2 (obs-output.c:1483) -/

/-- The S2 buffer: one audio track with packets at `dts_usec`
−200000, −100000, 0 and video packets at 0 and 33333 (timebase 1/30,
one frame = 33333 µs). -/
def s2_state : InterleaveState :=
  { initial_interleave_state with
      interleaved_packets :=
        [usecA 0 (-200000), usecA 0 (-100000), usecA 0 0,
         ⟨PacketType.video, 0, 0, 0, 1, 30, 0, true, 0⟩,
         ⟨PacketType.video, 0, 1, 1, 1, 30, 33333, true, 0⟩],
      received_video := true,
      received_audio := true }

/-- Claim C3 (counterexample).  On the S2 buffer the initialization-time
pruning leaves three packets — audio 0, video 0, video 33333 — not the
claimed two (audio 0 and video 33333): the premature-audio difference
`audio_first − video_first = −200000` is not greater than the 33333 µs
frame, so the discard goes only up to the closest-pair index 2, and the
video packet at 0 stays buffered. -/
theorem s2_prune_keeps_three_packets :
    ((prune_interleaved_packets s2_state 1).1.interleaved_packets.map
        fun p => (p.ptype, p.dts_usec))
      = [(PacketType.audio, 0), (PacketType.video, 0), (PacketType.video, 33333)]
    ∧ [(PacketType.audio, (0:Int)), (PacketType.video, 0), (PacketType.video, 33333)]
        ≠ [(PacketType.audio, (0:Int)), (PacketType.video, 33333)] := by
  refine ⟨by decide, by decide⟩

/-- Claim C3 (amended).  On the S2 buffer `prune_premature_packets`
returns 0 (the signed first-per-track difference −200000 does not exceed
one 33333 µs frame), so pruning discards up to the closest-pair start
index `min(video_first_idx = 3, closest_audio_idx = 2) = 2`, leaving the
audio packet at 0 and both video packets (0 and 33333) in the buffer. -/
theorem s2_prune_closest_pair :
    (prune_premature_packets s2_state 1).2 = 0
    ∧ get_interleaved_start_idx s2_state.interleaved_packets = 2
    ∧ (prune_interleaved_packets s2_state 1).2 = true
    ∧ (prune_interleaved_packets s2_state 1).1.interleaved_packets
        = s2_state.interleaved_packets.drop 2 := by
  refine ⟨by decide, by decide, by decide, by decide⟩

/-! ## Claim C5 — scenario S4 pause quantization (obs-output.c:570) -/

/-- The S4 pause state: no pause in progress,
`last_video_ts = 1_000_000_000`. -/
def s4_pause : PauseData :=
  ⟨0, 0, 0, 1000000000⟩

/-- Claim C5 (counterexample).  With `last_video_ts = 1_000_000_000`,
`I = 33_333_333` and `now = 1_050_000_000`, beginning a raw pause sets
`ts_start` to 1_099_999_999, not the claimed `last + 2·I =
1_066_666_666`: the claim's own formula gives
`⌊(50_000_000 + 66_666_666) / 33_333_333⌋ = 3` quantization steps, not
2. -/
theorem s4_ts_start_not_two_intervals :
    (obs_raw_output_pause s4_pause 33333333 1050000000 true).1.ts_start
      = 1099999999
    ∧ (1099999999 : Nat) ≠ 1066666666
    ∧ 1066666666 = 1000000000 + 2 * 33333333 := by
  refine ⟨by decide, by decide, by decide⟩

/-- Claim C5 (amended).  The quantized timestamp is
`last + ⌊(now − last + 2I) / I⌋ · I`; at the S4 values the quotient is 3,
so the pause request succeeds and sets
`ts_start = last + 3·I = 1_099_999_999`. -/
theorem s4_ts_start_three_intervals :
    obs_raw_output_pause s4_pause 33333333 1050000000 true
      = ({ s4_pause with ts_start := 1099999999 }, true)
    ∧ (1050000000 - 1000000000 + 33333333 * 2) / 33333333 = 3
    ∧ 1099999999 = 1000000000 + 3 * 33333333 := by
  refine ⟨by decide, by decide, by decide⟩

/-! ## Claim C9 — mixer setters while active (obs-output.c:781, 798) -/

/-- A valid, active output with `mixer_mask = 1`. -/
def c9_state : MixerState :=
  ⟨true, true, 1⟩

/-- Claim C9 (counterexample).  `obs_output_set_mixers` has no `active`
guard: invoked on a valid, *active* output it overwrites `mixer_mask`,
so the claim that every such setter leaves an active output's state
unchanged fails. -/
theorem set_mixers_mutates_active_output :
    c9_state.active = true
    ∧ obs_output_set_mixers c9_state 5 = ⟨true, true, 5⟩
    ∧ obs_output_set_mixers c9_state 5 ≠ c9_state := by
  refine ⟨rfl, by decide, by decide⟩

/-- Claim C9 (amended).  `obs_output_set_mixer` leaves a valid, active
output entirely unchanged (the guarded setters return without mutating),
while `obs_output_set_mixers` sets `mixer_mask` on any valid output,
active or not. -/
theorem set_mixer_inactive_only (s : MixerState) (i m : Nat)
    (hv : s.valid = true) :
    (s.active = true → obs_output_set_mixer s i = s)
    ∧ obs_output_set_mixers s m = { s with mixer_mask := m } := by
  constructor
  · intro ha
    simp [obs_output_set_mixer, hv, ha]
  · simp [obs_output_set_mixers, hv]

/-- Witness for the amended C9 theorem at a concrete active state. -/
theorem set_mixer_inactive_only_witness :
    (obs_output_set_mixer ⟨true, true, 1⟩ 3 = ⟨true, true, 1⟩)
    ∧ obs_output_set_mixers ⟨true, true, 1⟩ 7 = ⟨true, true, 7⟩ :=
  ⟨(set_mixer_inactive_only ⟨true, true, 1⟩ 3 7 rfl).1 rfl,
   (set_mixer_inactive_only ⟨true, true, 1⟩ 3 7 rfl).2⟩

/-! ## Claim C10 — `obs_output_pause` no-op and failure paths
(obs-output.c:688) -/

/-- Claim C10.  On a valid output with the `CAN_PAUSE` capability that is
active, requesting the pause state it already has returns `true` while
changing nothing and emitting no signal; without the capability, or while
not active, the call returns `false` and changes nothing. -/
theorem obs_output_pause_noop_and_guards (s : PauseOutputState) (b : Bool)
    (interval now : Nat) :
    (s.valid = true → s.can_pause_flag = true → s.active = true →
      s.paused = b → obs_output_pause s b interval now = (s, true, none))
    ∧ (s.can_pause_flag = false ∨ s.active = false →
      obs_output_pause s b interval now = (s, false, none)) := by
  constructor
  · intro h1 h2 h3 h4
    simp [obs_output_pause, h1, h2, h3, h4]
  · intro h
    by_cases h1 : s.valid
    · rcases h with h | h
      · simp [obs_output_pause, h1, h]
      · by_cases h2 : s.can_pause_flag
        · simp [obs_output_pause, h1, h2, h]
        · simp [obs_output_pause, h1, h2]
    · simp [obs_output_pause, h1]

/-- Witness for the C10 theorem: a valid, capable, active, already-paused
output, asked to pause again, reports success without any state change or
signal. -/
theorem obs_output_pause_noop_witness :
    obs_output_pause
        ⟨true, true, false, true, true, ⟨0, 0, 0, 0⟩, ⟨false, ⟨0, 0, 0, 0⟩⟩, []⟩
        true 33333333 1050000000
      = (⟨true, true, false, true, true, ⟨0, 0, 0, 0⟩, ⟨false, ⟨0, 0, 0, 0⟩⟩, []⟩,
         true, none) :=
  (obs_output_pause_noop_and_guards
      ⟨true, true, false, true, true, ⟨0, 0, 0, 0⟩, ⟨false, ⟨0, 0, 0, 0⟩⟩, []⟩
      true 33333333 1050000000).1 rfl rfl rfl rfl

/-! ## Claim C4 — ordered insert and the video-first tie-break
(obs-output.c:1660) -/

/-- The insertion position as the specification words it: the leftmost
index whose packet has strictly greater `dts_usec`, where for a video
packet a position of merely equal `dts_usec` also qualifies. -/
def insert_spec_pos (l : List Packet) (p : Packet) : Nat :=
  l.findIdx fun cur =>
    decide (p.dts_usec < cur.dts_usec
      ∨ (p.dts_usec = cur.dts_usec ∧ p.ptype = PacketType.video))

/-- The scan loop of `insert_interleaved_packet` lands exactly on
`insert_spec_pos`. -/
theorem insert_interleaved_eq_spec_pos (l : List Packet) (p : Packet) :
    insert_interleaved_packet l p =
      l.take (insert_spec_pos l p) ++ p :: l.drop (insert_spec_pos l p) := by
  induction l with
  | nil => rfl
  | cons c rest ih =>
      by_cases hA : p.dts_usec < c.dts_usec
      · have hf : insert_spec_pos (c :: rest) p = 0 := by
          simp [insert_spec_pos, List.findIdx_cons, hA]
        have hb : ((p.dts_usec == c.dts_usec && p.ptype == PacketType.video)
            || decide (p.dts_usec < c.dts_usec)) = true := by
          simp [hA]
        rw [hf]
        simp only [insert_interleaved_packet, hb]
        rfl
      · by_cases hB : p.dts_usec = c.dts_usec ∧ p.ptype = PacketType.video
        · have hf : insert_spec_pos (c :: rest) p = 0 := by
            simp [insert_spec_pos, List.findIdx_cons, hB.1, hB.2]
          have hb : ((p.dts_usec == c.dts_usec && p.ptype == PacketType.video)
              || decide (p.dts_usec < c.dts_usec)) = true := by
            simp [hB.1, hB.2]
          rw [hf]
          simp only [insert_interleaved_packet, hb]
          rfl
        · have hf : insert_spec_pos (c :: rest) p = insert_spec_pos rest p + 1 := by
            by_cases hE : p.dts_usec = c.dts_usec
            · have hV : ¬ p.ptype = PacketType.video := fun hh => hB ⟨hE, hh⟩
              simp [insert_spec_pos, List.findIdx_cons, hA, hV]
            · simp [insert_spec_pos, List.findIdx_cons, hA, hE]
          have hb : ((p.dts_usec == c.dts_usec && p.ptype == PacketType.video)
              || decide (p.dts_usec < c.dts_usec)) = false := by
            by_cases hE : p.dts_usec = c.dts_usec
            · have hV : ¬ p.ptype = PacketType.video := fun hh => hB ⟨hE, hh⟩
              simp [hA, hV]
            · simp [hA, hE]
          rw [hf]
          simp only [insert_interleaved_packet, hb]
          simp [ih]

/-- An audio and a video packet with identical `dts_usec` (5 µs). -/
def tieA : Packet := usecA 0 5
/-- See `tieA`. -/
def tieV : Packet := usecV 5

/-- A steady interleaver state holding the two equal-`dts_usec` packets,
with both opposing high-water marks above them so the emission guard
passes. -/
def tie_state : InterleaveState :=
  { initial_interleave_state with
      interleaved_packets :=
        insert_interleaved_packet (insert_interleaved_packet [] tieA) tieV,
      received_video := true,
      received_audio := true,
      highest_video_ts := 9,
      highest_audio_ts := 9 }

/-- Claim C4.  Every insertion places the new packet at the leftmost
position whose packet has strictly greater `dts_usec` — except that a
video packet is additionally placed before a packet of equal `dts_usec`
(`insert_spec_pos`) — and consequently, inserting a video packet after an
audio packet of the same `dts_usec` puts the video first in the buffer,
and `send_interleaved` hands the video packet to the sink before the
audio packet. -/
theorem insert_leftmost_and_video_first :
    (∀ (l : List Packet) (p : Packet),
      insert_interleaved_packet l p =
        l.take (insert_spec_pos l p) ++ p :: l.drop (insert_spec_pos l p))
    ∧ insert_interleaved_packet (insert_interleaved_packet [] tieA) tieV
        = [tieV, tieA]
    ∧ (send_interleaved tie_state).2 = some tieV
    ∧ (send_interleaved (send_interleaved tie_state).1).2 = some tieA := by
  refine ⟨insert_interleaved_eq_spec_pos, by decide, by decide, by decide⟩

/-! ## Claim C6 — scenario S5, reconnect backoff (obs-output.c:2414) -/

/-- The S5 initial state: a valid, active, capturing output with
`reconnect_retry_max = 3`, `reconnect_retry_sec = 2` and
`reconnect_retry_exp = 1.5`. -/
def s5_init : OutputState :=
  ⟨true, true, true, false, false, false, 0, StopCode.success, 3, 0, 0, 2, 3 / 2⟩

/-- First disconnect notification of S5. -/
def s5_run1 : OutputState × Option Nat × Option StopCode :=
  obs_output_signal_stop s5_init StopCode.disconnected
/-- Second disconnect notification of S5. -/
def s5_run2 : OutputState × Option Nat × Option StopCode :=
  obs_output_signal_stop s5_run1.1 StopCode.disconnected
/-- Third disconnect notification of S5. -/
def s5_run3 : OutputState × Option Nat × Option StopCode :=
  obs_output_signal_stop s5_run2.1 StopCode.disconnected
/-- Fourth disconnect notification of S5. -/
def s5_run4 : OutputState × Option Nat × Option StopCode :=
  obs_output_signal_stop s5_run3.1 StopCode.disconnected

/-- Claim C6.  With `retry_max = 3`, `retry_sec = 2`, `exp = 1.5`,
repeated disconnect notifications schedule retries of 2000 ms, 3000 ms
and 4500 ms (each without emitting `stop`), after which the output gives
up: no further retry is scheduled, the emitted `stop` signal carries
`OBS_OUTPUT_DISCONNECTED` (the `stop_code` published at give-up; the
field itself is reset to `SUCCESS` once the signal is emitted), the
`reconnecting` flag is cleared and data capture is ended.  Every delay in
the scenario — and, in general, every exponent-updated delay — is at most
`RECONNECT_RETRY_MAX_MSEC` (15 minutes). -/
theorem reconnect_backoff_scenario :
    s5_run1.2.1 = some 2000
    ∧ s5_run2.2.1 = some 3000
    ∧ s5_run3.2.1 = some 4500
    ∧ s5_run1.2.2 = none ∧ s5_run2.2.2 = none ∧ s5_run3.2.2 = none
    ∧ s5_run4.2.1 = none
    ∧ s5_run4.2.2 = some StopCode.disconnected
    ∧ s5_run4.1.reconnecting = false
    ∧ s5_run4.1.data_active = false
    ∧ s5_run4.1.active = false
    ∧ (2000 ≤ RECONNECT_RETRY_MAX_MSEC ∧ 3000 ≤ RECONNECT_RETRY_MAX_MSEC
        ∧ 4500 ≤ RECONNECT_RETRY_MAX_MSEC)
    ∧ (∀ (e : Rat) (cur : Nat), reconnect_bump e cur ≤ RECONNECT_RETRY_MAX_MSEC) := by
  have b1 : reconnect_bump (3 / 2) 2000 = 3000 := by
    unfold reconnect_bump RECONNECT_RETRY_MAX_MSEC
    norm_num
    decide
  have b2 : reconnect_bump (3 / 2) 3000 = 4500 := by
    unfold reconnect_bump RECONNECT_RETRY_MAX_MSEC
    norm_num
    decide
  have h1 : s5_run1 =
      (⟨true, false, false, true, false, false, 0, StopCode.disconnected,
        3, 1, 2000, 2, 3 / 2⟩, some 2000, none) := rfl
  have h2 : s5_run2 =
      (⟨true, false, false, true, false, false, 0, StopCode.disconnected,
        3, 2, reconnect_bump (3 / 2) 2000, 2, 3 / 2⟩,
       some (reconnect_bump (3 / 2) 2000), none) := by
    show obs_output_signal_stop s5_run1.1 StopCode.disconnected = _
    rw [h1]
    exact rfl
  have h2s : s5_run2.1 =
      ⟨true, false, false, true, false, false, 0, StopCode.disconnected,
        3, 2, 3000, 2, 3 / 2⟩ := by
    rw [h2, b1]
  have h3 : s5_run3 =
      (⟨true, false, false, true, false, false, 0, StopCode.disconnected,
        3, 3, reconnect_bump (3 / 2) 3000, 2, 3 / 2⟩,
       some (reconnect_bump (3 / 2) 3000), none) := by
    show obs_output_signal_stop s5_run2.1 StopCode.disconnected = _
    rw [h2s]
    exact rfl
  have h3s : s5_run3.1 =
      ⟨true, false, false, true, false, false, 0, StopCode.disconnected,
        3, 3, 4500, 2, 3 / 2⟩ := by
    rw [h3, b2]
  have h4 : s5_run4 =
      (⟨true, false, false, false, false, false, 0, StopCode.success,
        3, 3, 4500, 2, 3 / 2⟩, none, some StopCode.disconnected) := by
    show obs_output_signal_stop s5_run3.1 StopCode.disconnected = _
    rw [h3s]
    exact rfl
  refine ⟨by rw [h1], by rw [h2, b1], by rw [h3, b2],
          by rw [h1], by rw [h2], by rw [h3],
          by rw [h4], by rw [h4], by rw [h4], by rw [h4], by rw [h4],
          ⟨by decide, by decide, by decide⟩, ?_⟩
  intro e cur
  dsimp only [reconnect_bump]
  split
  · exact le_refl _
  · omega

/-! ## Claim C7 — `obs_output_signal_stop` routing (obs-output.c:2474) -/

/-- Helper: `obs_output_end_data_capture_internal` never touches `valid`,
`reconnecting`, the retry counters or `delay_restart_refs`. -/
theorem end_capture_internal_preserves (s : OutputState) (b : Bool) :
    (obs_output_end_data_capture_internal s b).1.valid = s.valid
    ∧ (obs_output_end_data_capture_internal s b).1.reconnecting = s.reconnecting
    ∧ (obs_output_end_data_capture_internal s b).1.reconnect_retries
        = s.reconnect_retries
    ∧ (obs_output_end_data_capture_internal s b).1.reconnect_retry_max
        = s.reconnect_retry_max
    ∧ (obs_output_end_data_capture_internal s b).1.delay_restart_refs
        = s.delay_restart_refs := by
  unfold obs_output_end_data_capture_internal end_capture_finish
  by_cases h1 : s.valid = true
  · by_cases h2 : s.active = true ∧ s.data_active = true
    · by_cases h3 : s.delay_active = true
      · by_cases h4 : s.delay_restart_refs = 0
        · cases b <;> simp [h1, h2.1, h2.2, h3, h4]
        · cases b <;> simp [h1, h2.1, h2.2, h3, h4]
      · cases b <;> simp [h1, h2.1, h2.2, h3]
    · cases b <;> simp [h1, h2]
  · simp [h1]

/-- With `signal = false`, `obs_output_end_data_capture_internal` emits no
`stop` signal. -/
theorem end_capture_internal_silent (s : OutputState) :
    (obs_output_end_data_capture_internal s false).2 = none := by
  unfold obs_output_end_data_capture_internal end_capture_finish
  by_cases h1 : s.valid = true
  · by_cases h2 : s.active = true ∧ s.data_active = true
    · by_cases h3 : s.delay_active = true
      · by_cases h4 : s.delay_restart_refs = 0
        · simp [h1, h2.1, h2.2, h3, h4]
        · simp [h1, h2.1, h2.2, h3, h4]
      · simp [h1, h2.1, h2.2, h3]
    · simp [h1, h2]
  · simp [h1]

/-- With `signal = true`, on a valid output with no active delay,
`obs_output_end_data_capture_internal` emits the `stop` signal carrying
the current `stop_code`. -/
theorem end_capture_internal_signals (s : OutputState) (hvv : s.valid = true)
    (hd : s.delay_active = false) :
    (obs_output_end_data_capture_internal s true).2 = some s.stop_code := by
  unfold obs_output_end_data_capture_internal end_capture_finish
  by_cases h2 : s.active = true ∧ s.data_active = true
  · simp [hvv, h2.1, h2.2, hd]
  · simp [hvv, h2]

/-- Helper: `output_reconnect` schedules a retry exactly when the retry budget —
reset to zero on a fresh (non-reconnecting) invocation — is not yet
exhausted, and emits the give-up `stop` signal exactly otherwise; it never
touches `delay_restart_refs`. -/
theorem output_reconnect_spec (s : OutputState) (hvv : s.valid = true) :
    ((output_reconnect s).2.1 = none ↔
        s.reconnect_retry_max ≤ (if s.reconnecting = true then s.reconnect_retries else 0))
    ∧ ((output_reconnect s).2.2 = none ↔
        ¬ s.reconnect_retry_max ≤ (if s.reconnecting = true then s.reconnect_retries else 0))
    ∧ (output_reconnect s).1.delay_restart_refs = s.delay_restart_refs := by
  unfold output_reconnect obs_output_end_data_capture
  by_cases hrec : s.reconnecting = true
  · by_cases hge : s.reconnect_retry_max ≤ s.reconnect_retries
    · by_cases hd : s.delay_active = true
      · simp [hrec, hge, hd]
        rw [end_capture_internal_signals _ (by simp [hvv]) (by simp)]
        rw [(end_capture_internal_preserves _ _).2.2.2.2]
        simp
      · simp [hrec, hge, hd]
        rw [end_capture_internal_signals _ (by simp [hvv]) (by simpa using hd)]
        rw [(end_capture_internal_preserves _ _).2.2.2.2]
        simp
    · simp [hrec, hge, apply_ite]
      all_goals (split <;> simp)
  · have hz : (if s.reconnecting = true then s.reconnect_retries else 0) = 0 := by
      simp [hrec]
    rw [hz]
    by_cases hge : s.reconnect_retry_max = 0
    · by_cases hd : s.delay_active = true
      · simp [hrec, hge, hd]
        rw [end_capture_internal_signals _ (by simp [hvv]) (by simp)]
        rw [(end_capture_internal_preserves _ _).2.2.2.2]
        simp
      · simp [hrec, hge, hd]
        rw [end_capture_internal_signals _ (by simp [hvv]) (by simpa using hd)]
        rw [(end_capture_internal_preserves _ _).2.2.2.2]
        simp
    · simp [hrec, hge, apply_ite]
      all_goals (split <;> simp)

/-- Claim C7 (amended).  `obs_output_signal_stop(code)` on a valid output
schedules a reconnect iff `can_reconnect(code)` holds *and* the retry
budget is not already exhausted (`reconnecting → retries < retry_max`);
whenever `can_reconnect(code)` holds and delay is active,
`delay_restart_refs` is incremented; and the `stop` signal is emitted iff
`can_reconnect(code)` fails or the budget was exhausted (the reconnect
controller gives up and finalizes the stop itself). -/
theorem signal_stop_schedule_iff (s : OutputState) (code : StopCode)
    (hv : s.valid = true) :
    ((obs_output_signal_stop s code).2.1 ≠ none ↔
      (can_reconnect s code = true
        ∧ (s.reconnecting = true → s.reconnect_retries < s.reconnect_retry_max)))
    ∧ (can_reconnect s code = true ∧ s.delay_active = true →
        (obs_output_signal_stop s code).1.delay_restart_refs
          = s.delay_restart_refs + 1)
    ∧ ((obs_output_signal_stop s code).2.2 ≠ none ↔
      (can_reconnect s code = false
        ∨ (s.reconnecting = true ∧ s.reconnect_retry_max ≤ s.reconnect_retries))) := by
  by_cases hcr : can_reconnect s code = true
  · by_cases hd : s.delay_active = true
    · have hbranch : obs_output_signal_stop s code =
          output_reconnect (obs_output_end_data_capture_internal
            { s with stop_code := code,
                     delay_restart_refs := s.delay_restart_refs + 1 } false).1 := by
        unfold obs_output_signal_stop
        rw [if_neg (by simp [hv]), if_pos (show can_reconnect
          { s with stop_code := code } code = true from hcr)]
        simp [hd]
      rw [hbranch]
      refine ⟨?_, ?_, ?_⟩
      · rw [Ne, (output_reconnect_spec _ (by
          rw [(end_capture_internal_preserves _ _).1]
          simp [hv])).1]
        rw [(end_capture_internal_preserves _ _).2.1,
          (end_capture_internal_preserves _ _).2.2.1,
          (end_capture_internal_preserves _ _).2.2.2.1]
        simp only [hcr, true_and]
        by_cases hrec : s.reconnecting = true
        · simp [hrec, Nat.not_le]
        · have hmz : s.reconnect_retry_max ≠ 0 := by
            simp [can_reconnect, hrec] at hcr
            exact hcr.1
          simp [hrec]
          omega
      · intro _
        rw [(output_reconnect_spec _ (by
          rw [(end_capture_internal_preserves _ _).1]
          simp [hv])).2.2]
        rw [(end_capture_internal_preserves _ _).2.2.2.2]
      · rw [Ne, (output_reconnect_spec _ (by
          rw [(end_capture_internal_preserves _ _).1]
          simp [hv])).2.1]
        rw [(end_capture_internal_preserves _ _).2.1,
          (end_capture_internal_preserves _ _).2.2.1,
          (end_capture_internal_preserves _ _).2.2.2.1]
        simp only [hcr, Bool.true_eq_false, false_or, not_not]
        by_cases hrec : s.reconnecting = true
        · simp [hrec]
        · have hmz : s.reconnect_retry_max ≠ 0 := by
            simp [can_reconnect, hrec] at hcr
            exact hcr.1
          simp [hrec]
          omega
    · have hbranch : obs_output_signal_stop s code =
          output_reconnect (obs_output_end_data_capture_internal
            { s with stop_code := code } false).1 := by
        unfold obs_output_signal_stop
        rw [if_neg (by simp [hv]), if_pos (show can_reconnect
          { s with stop_code := code } code = true from hcr)]
        simp [hd]
      rw [hbranch]
      refine ⟨?_, ?_, ?_⟩
      · rw [Ne, (output_reconnect_spec _ (by
          rw [(end_capture_internal_preserves _ _).1]
          simp [hv])).1]
        rw [(end_capture_internal_preserves _ _).2.1,
          (end_capture_internal_preserves _ _).2.2.1,
          (end_capture_internal_preserves _ _).2.2.2.1]
        simp only [hcr, true_and]
        by_cases hrec : s.reconnecting = true
        · simp [hrec, Nat.not_le]
        · have hmz : s.reconnect_retry_max ≠ 0 := by
            simp [can_reconnect, hrec] at hcr
            exact hcr.1
          simp [hrec]
          omega
      · intro hh
        exact absurd hh.2 (by simpa using hd)
      · rw [Ne, (output_reconnect_spec _ (by
          rw [(end_capture_internal_preserves _ _).1]
          simp [hv])).2.1]
        rw [(end_capture_internal_preserves _ _).2.1,
          (end_capture_internal_preserves _ _).2.2.1,
          (end_capture_internal_preserves _ _).2.2.2.1]
        simp only [hcr, Bool.true_eq_false, false_or, not_not]
        by_cases hrec : s.reconnecting = true
        · simp [hrec]
        · have hmz : s.reconnect_retry_max ≠ 0 := by
            simp [can_reconnect, hrec] at hcr
            exact hcr.1
          simp [hrec]
          omega
  · have hcf : can_reconnect s code = false := by
      revert hcr
      cases can_reconnect s code <;> simp
    by_cases hd : s.delay_active = true
    all_goals {
      have hbranch : obs_output_signal_stop s code =
          ((obs_output_end_data_capture_internal
              (if s.delay_active = true
                then { s with stop_code := code, delay_active := false }
                else { s with stop_code := code }) true).1, none,
           (obs_output_end_data_capture_internal
              (if s.delay_active = true
                then { s with stop_code := code, delay_active := false }
                else { s with stop_code := code }) true).2) := by
        unfold obs_output_signal_stop obs_output_end_data_capture
        rw [if_neg (by simp [hv]), if_neg (show ¬ (can_reconnect
          { s with stop_code := code } code = true) by
            rw [show can_reconnect { s with stop_code := code } code
              = can_reconnect s code from rfl, hcf]
            simp)]
      rw [hbranch]
      simp only [hd, if_true, if_false, Bool.false_eq_true, ite_true, ite_false]
      refine ⟨by simp [hcf], fun h => absurd h.1 (by simp [hcf]), ?_⟩
      rw [Ne, end_capture_internal_signals _ (by simp [hv])
        (by first | simp | simpa using hd)]
      simp [hcf]
    }

/-- The state after the third S5-style retry has been scheduled: valid,
inactive, reconnecting, with the retry budget (3) exhausted. -/
def c7_state : OutputState :=
  ⟨true, false, false, true, false, false, 0, StopCode.disconnected,
   3, 3, 4500, 2, 3 / 2⟩

/-- Claim C7 (counterexample).  On a reconnecting output whose retry
budget is exhausted, a `DISCONNECTED` stop notification satisfies
`can_reconnect`, yet no reconnect is scheduled and the `stop` signal *is*
emitted: the claim's if-and-only-if (schedule exactly when
`can_reconnect` holds, emit `stop` exactly otherwise) fails. -/
theorem signal_stop_gives_up_despite_can_reconnect :
    can_reconnect c7_state StopCode.disconnected = true
    ∧ (obs_output_signal_stop c7_state StopCode.disconnected).2.1 = none
    ∧ (obs_output_signal_stop c7_state StopCode.disconnected).2.2
        = some StopCode.disconnected := by
  refine ⟨by decide, rfl, rfl⟩

/-- Witness for the amended C7 theorem at a fresh disconnect: a valid,
active, non-reconnecting output with `retry_max = 3`. -/
theorem signal_stop_schedule_iff_witness :
    ((obs_output_signal_stop
        ⟨true, true, true, false, false, false, 0, StopCode.success,
         3, 0, 0, 2, 3 / 2⟩ StopCode.disconnected).2.1 ≠ none ↔
      (can_reconnect
          ⟨true, true, true, false, false, false, 0, StopCode.success,
           3, 0, 0, 2, 3 / 2⟩ StopCode.disconnected = true
        ∧ ((false : Bool) = true → (0 : Nat) < 3)))
    ∧ (can_reconnect
          ⟨true, true, true, false, false, false, 0, StopCode.success,
           3, 0, 0, 2, 3 / 2⟩ StopCode.disconnected = true
        ∧ (false : Bool) = true →
        (obs_output_signal_stop
          ⟨true, true, true, false, false, false, 0, StopCode.success,
           3, 0, 0, 2, 3 / 2⟩ StopCode.disconnected).1.delay_restart_refs
          = 0 + 1)
    ∧ ((obs_output_signal_stop
        ⟨true, true, true, false, false, false, 0, StopCode.success,
         3, 0, 0, 2, 3 / 2⟩ StopCode.disconnected).2.2 ≠ none ↔
      (can_reconnect
          ⟨true, true, true, false, false, false, 0, StopCode.success,
           3, 0, 0, 2, 3 / 2⟩ StopCode.disconnected = false
        ∨ ((false : Bool) = true ∧ (3 : Nat) ≤ 0))) :=
  signal_stop_schedule_iff
    ⟨true, true, true, false, false, false, 0, StopCode.success,
     3, 0, 0, 2, 3 / 2⟩ StopCode.disconnected rfl

/-! ## Claim C8 — scenario S6, text-caption injection (obs-output.c:1342) -/

/-- The S6 caption state: texts "HELLO" and "WORLD" queued, each with
`display_duration = 2.0`; no raw CEA-708 data; `caption_timestamp = 0`. -/
def s6_caption : CaptionState := ⟨[⟨"HELLO", 2⟩, ⟨"WORLD", 2⟩], 0, 0⟩

/-- S6, video frame at `pts·num/den = 20·1/2 = 10.00` s. -/
def s6_f1 : CaptionState × Rat × Bool := send_interleaved_caption s6_caption 0 20 1 2 0
/-- S6, video frame at `21·1/2 = 10.5` s. -/
def s6_f2 : CaptionState × Rat × Bool := send_interleaved_caption s6_f1.1 0 21 1 2 0
/-- S6, video frame at `22·1/2 = 11.0` s. -/
def s6_f3 : CaptionState × Rat × Bool := send_interleaved_caption s6_f2.1 0 22 1 2 0
/-- S6, video frame at `24·1/2 = 12.0` s. -/
def s6_f4 : CaptionState × Rat × Bool := send_interleaved_caption s6_f3.1 0 24 1 2 0

/-- If the text-guarded branch of `send_interleaved` appended an SEI, then
the queue head's display window had expired (`caption_timestamp ≤
frame_timestamp`) and `caption_timestamp` was advanced to the frame
timestamp plus the head's `display_duration`. -/
theorem caption_general_1 (cs : CaptionState) (last : Rat) (pts num den prio : Int)
    (e : CaptionEntry) (rest : List CaptionEntry)
    (hhead : cs.caption_head = e :: rest)
    (hadd : (send_interleaved_caption cs last pts num den prio).2.2 = true) :
    cs.caption_timestamp ≤ frame_timestamp_of pts num den
    ∧ (send_interleaved_caption cs last pts num den prio).1.caption_timestamp
        = frame_timestamp_of pts num den + e.display_duration := by
  unfold send_interleaved_caption at hadd ⊢
  rw [hhead] at hadd ⊢
  by_cases hle : cs.caption_timestamp ≤ frame_timestamp_of pts num den
  · by_cases hp : prio > 1
    · exfalso
      simp only [hle, if_true, if_false, ite_true, ite_false] at hadd
      simp [add_caption, hp, hhead] at hadd
      split_ifs at hadd <;> simp_all
    · refine ⟨hle, ?_⟩
      by_cases hdata : cs.caption_data_size > 0
      · simp [hle, hp, hdata, add_caption, hhead]
      · simp [hle, hp, hdata, add_caption, hhead]
  · exfalso
    simp only [hle, if_true, if_false, ite_true, ite_false] at hadd
    split_ifs at hadd <;> simp_all

/-- With an empty text queue the text-guarded branch never fires. -/
theorem caption_general_2 (cs : CaptionState) (last : Rat) (pts num den prio : Int)
    (hhead : cs.caption_head = []) :
    (send_interleaved_caption cs last pts num den prio).2.2 = false := by
  unfold send_interleaved_caption
  rw [hhead]
  by_cases hdata : cs.caption_data_size > 0
  · by_cases hlast : last < frame_timestamp_of pts num den
    · simp [hdata, hlast]
    · simp [hdata, hlast]
  · simp [hdata]

/-- S6 step 1: the frame at 10.00 s receives the SEI, "HELLO" is popped,
`caption_timestamp` becomes 12.00. -/
theorem s6_step1 : s6_f1 = (⟨[⟨"WORLD", 2⟩], 0, 12⟩, 0, true) := by
  show send_interleaved_caption s6_caption 0 20 1 2 0 = _
  unfold send_interleaved_caption add_caption s6_caption frame_timestamp_of
  norm_num

/-- S6 step 2: the frame at 10.5 s gets no text SEI (12 ≤ 10.5 fails). -/
theorem s6_step2 : s6_f2 = (⟨[⟨"WORLD", 2⟩], 0, 12⟩, 0, false) := by
  show send_interleaved_caption s6_f1.1 0 21 1 2 0 = _
  rw [show s6_f1.1 = (⟨[⟨"WORLD", 2⟩], 0, 12⟩ : CaptionState) from by rw [s6_step1]]
  unfold send_interleaved_caption add_caption frame_timestamp_of
  norm_num

/-- S6 step 3: the frame at 11.0 s gets no text SEI. -/
theorem s6_step3 : s6_f3 = (⟨[⟨"WORLD", 2⟩], 0, 12⟩, 0, false) := by
  show send_interleaved_caption s6_f2.1 0 22 1 2 0 = _
  rw [show s6_f2.1 = (⟨[⟨"WORLD", 2⟩], 0, 12⟩ : CaptionState) from by rw [s6_step2]]
  unfold send_interleaved_caption add_caption frame_timestamp_of
  norm_num

/-- S6 step 4: the frame at 12.0 s carries the next queued text
(12 ≤ 12), and `caption_timestamp` becomes 14.00. -/
theorem s6_step4 : s6_f4 = (⟨[], 0, 14⟩, 0, true) := by
  show send_interleaved_caption s6_f3.1 0 24 1 2 0 = _
  rw [show s6_f3.1 = (⟨[⟨"WORLD", 2⟩], 0, 12⟩ : CaptionState) from by rw [s6_step3]]
  unfold send_interleaved_caption add_caption frame_timestamp_of
  norm_num

/-- Claim C8.  Text-caption injection happens only when the text queue is
non-empty and `caption_timestamp ≤ frame_ts = pts·num/den`, and on
success advances `caption_timestamp` to `frame_ts + display_duration`;
concretely (S6), after queuing "HELLO" and "WORLD" with duration 2.0, the
frame at 10.00 s gets an SEI and `caption_timestamp ← 12.00`, the frames
at 10.5 s and 11.0 s get no text SEI, and the frame at 12.0 s carries the
next queued text, advancing `caption_timestamp` to 14.00.  (The C doubles
are exact on all these dyadic values; real arithmetic is modelled by
`Rat`.) -/
theorem caption_text_injection_rules :
    (∀ (cs : CaptionState) (last : Rat) (pts num den prio : Int)
        (e : CaptionEntry) (rest : List CaptionEntry),
      cs.caption_head = e :: rest →
      (send_interleaved_caption cs last pts num den prio).2.2 = true →
      cs.caption_timestamp ≤ frame_timestamp_of pts num den
      ∧ (send_interleaved_caption cs last pts num den prio).1.caption_timestamp
          = frame_timestamp_of pts num den + e.display_duration)
    ∧ (∀ (cs : CaptionState) (last : Rat) (pts num den prio : Int),
      cs.caption_head = [] →
      (send_interleaved_caption cs last pts num den prio).2.2 = false)
    ∧ frame_timestamp_of 20 1 2 = 10
    ∧ frame_timestamp_of 24 1 2 = 12
    ∧ s6_f1.2.2 = true
    ∧ s6_f1.1.caption_timestamp = 12
    ∧ s6_f2.2.2 = false ∧ s6_f2.1 = s6_f1.1
    ∧ s6_f3.2.2 = false ∧ s6_f3.1 = s6_f2.1
    ∧ s6_f4.2.2 = true
    ∧ s6_f4.1.caption_timestamp = 14
    ∧ s6_f4.1.caption_head = [] := by
  refine ⟨fun cs last pts num den prio e rest hh ha =>
      caption_general_1 cs last pts num den prio e rest hh ha,
    fun cs last pts num den prio hh =>
      caption_general_2 cs last pts num den prio hh,
    by unfold frame_timestamp_of; norm_num,
    by unfold frame_timestamp_of; norm_num,
    by rw [s6_step1], by rw [s6_step1],
    by rw [s6_step2], by rw [s6_step2, s6_step1],
    by rw [s6_step3], by rw [s6_step3, s6_step2],
    by rw [s6_step4], by rw [s6_step4], by rw [s6_step4]⟩

/-- Witness for the C8 rules at the S6 data: the injection at the 10.00 s
frame satisfies the guard `0 ≤ 10` and advances `caption_timestamp` to
`10 + 2`. -/
theorem caption_text_injection_rules_witness :
    s6_caption.caption_timestamp ≤ frame_timestamp_of 20 1 2
    ∧ (send_interleaved_caption s6_caption 0 20 1 2 0).1.caption_timestamp
        = frame_timestamp_of 20 1 2 + (2 : Rat) :=
  caption_text_injection_rules.1 s6_caption 0 20 1 2 0 ⟨"HELLO", 2⟩
    [⟨"WORLD", 2⟩] rfl (by show s6_f1.2.2 = true; rw [s6_step1])

/-! ## Claim C1 — monotone emission (obs-output.c:1330, 1223) -/

/-- The buffer is sorted by `dts_usec` (non-strictly). -/
abbrev bufferSorted (l : List Packet) : Prop :=
  l.Pairwise fun a b => a.dts_usec ≤ b.dts_usec

/-- The steady-state interleaver invariant with emission floor `lo`: both
streams received, the buffer sorted, every buffered packet at or above the
floor and at or below its own type's high-water mark, and the floor below
both marks.  It holds (with `lo` the last emitted `dts_usec`) in every
state the interleaver reaches after initialization. -/
def SteadyInv (s : InterleaveState) (lo : Int) : Prop :=
  s.received_video = true ∧ s.received_audio = true
  ∧ bufferSorted s.interleaved_packets
  ∧ (∀ p ∈ s.interleaved_packets, lo ≤ p.dts_usec)
  ∧ (∀ p ∈ s.interleaved_packets,
      p.ptype = PacketType.video → p.dts_usec ≤ s.highest_video_ts)
  ∧ (∀ p ∈ s.interleaved_packets,
      p.ptype = PacketType.audio → p.dts_usec ≤ s.highest_audio_ts)
  ∧ lo ≤ s.highest_video_ts
  ∧ lo ≤ s.highest_audio_ts

/-- Per-type monotone input relative to the floors `vf`/`af` (the current
high-water marks): each arriving packet's rebased `dts_usec` is at or
above its own type's floor, which it then replaces.  For a single audio
track this is exactly the per-encoder non-decreasing-`dts` guarantee. -/
def monoInput (vo : Int) (ao : Nat → Int) : Int → Int → List Packet → Bool
  | _, _, [] => true
  | vf, af, p :: ps =>
      let q := apply_packet_offset vo ao p
      match q.ptype with
      | PacketType.video => decide (vf ≤ q.dts_usec) && monoInput vo ao q.dts_usec af ps
      | PacketType.audio => decide (af ≤ q.dts_usec) && monoInput vo ao vf q.dts_usec ps

/-- Members of the buffer after an insert are the new packet or old
members. -/
theorem mem_of_mem_insert {l : List Packet} {q r : Packet}
    (h : r ∈ insert_interleaved_packet l q) : r = q ∨ r ∈ l := by
  rw [insert_interleaved_eq_spec_pos] at h
  rcases List.mem_append.mp h with h1 | h1
  · exact Or.inr (List.take_subset _ _ h1)
  · rcases List.mem_cons.mp h1 with h2 | h2
    · exact Or.inl h2
    · exact Or.inr (List.drop_subset _ _ h2)

/-- Helper: `insert_interleaved_packet` preserves sortedness by `dts_usec`. -/
theorem insert_sorted {l : List Packet} (q : Packet) (h : bufferSorted l) :
    bufferSorted (insert_interleaved_packet l q) := by
  induction l with
  | nil => simp [insert_interleaved_packet, bufferSorted]
  | cons c rest ih =>
      have h := List.pairwise_cons.mp h
      unfold insert_interleaved_packet
      by_cases hb : ((q.dts_usec == c.dts_usec && q.ptype == PacketType.video)
          || decide (q.dts_usec < c.dts_usec)) = true
      · rw [if_pos hb]
        have hqc : q.dts_usec ≤ c.dts_usec := by
          simp only [Bool.or_eq_true, Bool.and_eq_true, beq_iff_eq,
            decide_eq_true_eq] at hb
          rcases hb with ⟨h1, _⟩ | h1
          · omega
          · omega
        refine List.Pairwise.cons ?_ (List.Pairwise.cons h.1 h.2)
        intro b hbmem
        rcases List.mem_cons.mp hbmem with h2 | h2
        · rw [h2]
          exact hqc
        · have := h.1 b h2
          omega
      · rw [if_neg hb]
        have hcq : c.dts_usec ≤ q.dts_usec := by
          simp only [Bool.or_eq_true, Bool.and_eq_true, beq_iff_eq,
            decide_eq_true_eq, not_or, not_and] at hb
          omega
        refine List.Pairwise.cons ?_ (ih h.2)
        intro b hbmem
        rcases mem_of_mem_insert hbmem with h2 | h2
        · rw [h2]
          exact hcq
        · exact h.1 b h2

/-- An insert always yields a non-empty buffer. -/
theorem insert_eq_cons (l : List Packet) (q : Packet) :
    ∃ h t, insert_interleaved_packet l q = h :: t := by
  cases l with
  | nil => exact ⟨q, [], rfl⟩
  | cons c rest =>
      unfold insert_interleaved_packet
      by_cases hb : ((q.dts_usec == c.dts_usec && q.ptype == PacketType.video)
          || decide (q.dts_usec < c.dts_usec)) = true
      · exact ⟨q, c :: rest, by rw [if_pos hb]⟩
      · exact ⟨c, insert_interleaved_packet rest q, by rw [if_neg hb]⟩

/-- Rebasing does not change a packet's type. -/
theorem apply_packet_offset_ptype (vo : Int) (ao : Nat → Int) (p : Packet) :
    (apply_packet_offset vo ao p).ptype = p.ptype := rfl

/-- Helper: `set_higher_ts` only touches the high-water marks. -/
theorem set_higher_ts_fields (s : InterleaveState) (p : Packet) :
    (set_higher_ts s p).interleaved_packets = s.interleaved_packets
    ∧ (set_higher_ts s p).received_video = s.received_video
    ∧ (set_higher_ts s p).received_audio = s.received_audio
    ∧ (set_higher_ts s p).video_offset = s.video_offset
    ∧ (set_higher_ts s p).audio_offsets = s.audio_offsets := by
  unfold set_higher_ts
  cases p.ptype
  · by_cases hlt : s.highest_video_ts < p.dts_usec <;> simp [hlt]
  · by_cases hlt : s.highest_audio_ts < p.dts_usec <;> simp [hlt]

/-- A video packet at or above the video mark becomes the new mark. -/
theorem set_higher_ts_video (s : InterleaveState) (p : Packet)
    (h : p.ptype = PacketType.video) (hle : s.highest_video_ts ≤ p.dts_usec) :
    (set_higher_ts s p).highest_video_ts = p.dts_usec
    ∧ (set_higher_ts s p).highest_audio_ts = s.highest_audio_ts := by
  unfold set_higher_ts
  rw [h]
  by_cases hlt : s.highest_video_ts < p.dts_usec
  · simp [hlt]
  · simp [hlt]
    omega

/-- An audio packet at or above the audio mark becomes the new mark. -/
theorem set_higher_ts_audio (s : InterleaveState) (p : Packet)
    (h : p.ptype = PacketType.audio) (hle : s.highest_audio_ts ≤ p.dts_usec) :
    (set_higher_ts s p).highest_audio_ts = p.dts_usec
    ∧ (set_higher_ts s p).highest_video_ts = s.highest_video_ts := by
  unfold set_higher_ts
  rw [h]
  by_cases hlt : s.highest_audio_ts < p.dts_usec
  · simp [hlt]
  · simp [hlt]
    omega

/-- In steady state (both streams received) the interleaver callback is:
rebase the packet, insert it sorted, raise the mark, try one emission. -/
theorem interleave_packets_steady (s : InterleaveState) (mixes : Nat) (p : Packet)
    (hrv : s.received_video = true) (hra : s.received_audio = true) :
    interleave_packets s mixes p =
      send_interleaved (set_higher_ts
        { s with interleaved_packets :=
            (insert_interleaved_packet s.interleaved_packets
              (apply_interleaved_packet_offset s p)) }
        (apply_interleaved_packet_offset s p)) := by
  unfold interleave_packets
  simp [hrv, hra, (set_higher_ts_fields _ _).2.1, (set_higher_ts_fields _ _).2.2.1]

/-- One steady-state step preserves `SteadyInv`, keeps the offsets,
moves the arriving packet's own mark to its `dts_usec`, and emits (if
anything) exactlya packet at the new floor `lo' ≥ lo`. -/
theorem steady_step (s : InterleaveState) (lo : Int) (p : Packet) (mixes : Nat)
    (inv : SteadyInv s lo)
    (hfv : (apply_interleaved_packet_offset s p).ptype = PacketType.video →
      s.highest_video_ts ≤ (apply_interleaved_packet_offset s p).dts_usec)
    (hfa : (apply_interleaved_packet_offset s p).ptype = PacketType.audio →
      s.highest_audio_ts ≤ (apply_interleaved_packet_offset s p).dts_usec) :
    ∃ lo',
      lo ≤ lo'
      ∧ SteadyInv (interleave_packets s mixes p).1 lo'
      ∧ (interleave_packets s mixes p).1.video_offset = s.video_offset
      ∧ (interleave_packets s mixes p).1.audio_offsets = s.audio_offsets
      ∧ ((apply_interleaved_packet_offset s p).ptype = PacketType.video →
          (interleave_packets s mixes p).1.highest_video_ts
            = (apply_interleaved_packet_offset s p).dts_usec
          ∧ (interleave_packets s mixes p).1.highest_audio_ts = s.highest_audio_ts)
      ∧ ((apply_interleaved_packet_offset s p).ptype = PacketType.audio →
          (interleave_packets s mixes p).1.highest_audio_ts
            = (apply_interleaved_packet_offset s p).dts_usec
          ∧ (interleave_packets s mixes p).1.highest_video_ts = s.highest_video_ts)
      ∧ (∀ e, (interleave_packets s mixes p).2 = some e → e.dts_usec = lo')
      ∧ ((interleave_packets s mixes p).2 = none → lo' = lo) := by
  obtain ⟨hrv, hra, hsort, hlow, hvb, hab, hlov, hloa⟩ := inv
  rw [interleave_packets_steady s mixes p hrv hra]
  set q := apply_interleaved_packet_offset s p with hqdef
  set s2 : InterleaveState :=
    { s with interleaved_packets :=
        (insert_interleaved_packet s.interleaved_packets q) } with hs2def
  set t := set_higher_ts s2 q with htdef
  have htbuf : t.interleaved_packets
      = insert_interleaved_packet s.interleaved_packets q :=
    (set_higher_ts_fields s2 q).1
  have htrv : t.received_video = true := by
    rw [htdef, (set_higher_ts_fields s2 q).2.1]
    exact hrv
  have htra : t.received_audio = true := by
    rw [htdef, (set_higher_ts_fields s2 q).2.2.1]
    exact hra
  have htvo : t.video_offset = s.video_offset :=
    (set_higher_ts_fields s2 q).2.2.2.1
  have htao : t.audio_offsets = s.audio_offsets :=
    (set_higher_ts_fields s2 q).2.2.2.2
  have hmarks_v : q.ptype = PacketType.video →
      t.highest_video_ts = q.dts_usec
      ∧ t.highest_audio_ts = s.highest_audio_ts := fun h =>
    set_higher_ts_video s2 q h (hfv h)
  have hmarks_a : q.ptype = PacketType.audio →
      t.highest_audio_ts = q.dts_usec
      ∧ t.highest_video_ts = s.highest_video_ts := fun h =>
    set_higher_ts_audio s2 q h (hfa h)
  have hv_le : s.highest_video_ts ≤ t.highest_video_ts := by
    cases hqt : q.ptype
    · rw [(hmarks_v hqt).1]
      exact hfv hqt
    · rw [(hmarks_a hqt).2]
  have ha_le : s.highest_audio_ts ≤ t.highest_audio_ts := by
    cases hqt : q.ptype
    · rw [(hmarks_v hqt).2]
    · rw [(hmarks_a hqt).1]
      exact hfa hqt
  have hmem : ∀ r ∈ t.interleaved_packets,
      r = q ∨ r ∈ s.interleaved_packets := by
    rw [htbuf]
    exact fun r hr => mem_of_mem_insert hr
  have hlow_q : lo ≤ q.dts_usec := by
    cases hqt : q.ptype
    · exact le_trans hlov (hfv hqt)
    · exact le_trans hloa (hfa hqt)
  have htlow : ∀ r ∈ t.interleaved_packets, lo ≤ r.dts_usec := by
    intro r hr
    rcases hmem r hr with he | he
    · rw [he]
      exact hlow_q
    · exact hlow r he
  have htsort : bufferSorted t.interleaved_packets := by
    rw [htbuf]
    exact insert_sorted q hsort
  have htvb : ∀ r ∈ t.interleaved_packets,
      r.ptype = PacketType.video → r.dts_usec ≤ t.highest_video_ts := by
    intro r hr hrt
    rcases hmem r hr with he | he
    · rw [he]
      rw [he] at hrt
      rw [(hmarks_v hrt).1]
    · exact le_trans (hvb r he hrt) hv_le
  have htab : ∀ r ∈ t.interleaved_packets,
      r.ptype = PacketType.audio → r.dts_usec ≤ t.highest_audio_ts := by
    intro r hr hrt
    rcases hmem r hr with he | he
    · rw [he]
      rw [he] at hrt
      rw [(hmarks_a hrt).1]
    · exact le_trans (hab r he hrt) ha_le
  have htlov : lo ≤ t.highest_video_ts := le_trans hlov hv_le
  have htloa : lo ≤ t.highest_audio_ts := le_trans hloa ha_le
  obtain ⟨h0, t0, hcons⟩ := insert_eq_cons s.interleaved_packets q
  have hbuf0 : t.interleaved_packets = h0 :: t0 := htbuf.trans hcons
  have hsend : send_interleaved t =
      if has_higher_opposing_ts t h0 then
        ({ t with interleaved_packets := t0 }, some h0)
      else (t, none) := by
    unfold send_interleaved
    rw [hbuf0]
  have hh0mem : h0 ∈ t.interleaved_packets := by
    rw [hbuf0]
    exact List.mem_cons_self h0 t0
  have hsort0 := htsort
  rw [hbuf0] at hsort0
  have hsort0' := List.pairwise_cons.mp hsort0
  rw [hsend]
  by_cases hguard : has_higher_opposing_ts t h0 = true
  · rw [if_pos hguard]
    refine ⟨h0.dts_usec, htlow h0 hh0mem, ?_, htvo, htao, ?_, ?_, ?_, ?_⟩
    · refine ⟨htrv, htra, ?_, ?_, ?_, ?_, ?_, ?_⟩
      · show bufferSorted t0
        exact hsort0'.2
      · intro r hr
        exact hsort0'.1 r hr
      · intro r hr hrt
        exact htvb r (by rw [hbuf0]; exact List.mem_cons_of_mem h0 hr) hrt
      · intro r hr hrt
        exact htab r (by rw [hbuf0]; exact List.mem_cons_of_mem h0 hr) hrt
      · show h0.dts_usec ≤ t.highest_video_ts
        cases hh : h0.ptype
        · exact htvb h0 hh0mem hh
        · unfold has_higher_opposing_ts at hguard
          rw [hh] at hguard
          simp at hguard
          omega
      · show h0.dts_usec ≤ t.highest_audio_ts
        cases hh : h0.ptype
        · unfold has_higher_opposing_ts at hguard
          rw [hh] at hguard
          simp at hguard
          omega
        · exact htab h0 hh0mem hh
    · intro hqt
      exact ⟨(hmarks_v hqt).1, (hmarks_v hqt).2⟩
    · intro hqt
      exact ⟨(hmarks_a hqt).1, (hmarks_a hqt).2⟩
    · intro e he
      cases he
      rfl
    · intro he
      cases he
  · rw [if_neg hguard]
    refine ⟨lo, le_refl lo, ?_, htvo, htao, ?_, ?_, ?_, ?_⟩
    · exact ⟨htrv, htra, htsort, htlow, htvb, htab, htlov, htloa⟩
    · intro hqt
      exact ⟨(hmarks_v hqt).1, (hmarks_v hqt).2⟩
    · intro hqt
      exact ⟨(hmarks_a hqt).1, (hmarks_a hqt).2⟩
    · intro e he
      cases he
    · intro _
      rfl

/-- Running any per-type-monotone packet sequence from a `SteadyInv`
state emits a non-decreasing `dts_usec` sequence bounded below by the
floor. -/
theorem steady_run (mixes : Nat) (ps : List Packet) :
    ∀ (s : InterleaveState) (lo : Int), SteadyInv s lo →
    monoInput s.video_offset s.audio_offsets
      s.highest_video_ts s.highest_audio_ts ps = true →
    List.Pairwise (fun a b : Packet => a.dts_usec ≤ b.dts_usec)
        (run_interleaver s mixes ps).2
    ∧ ∀ e ∈ (run_interleaver s mixes ps).2, lo ≤ e.dts_usec := by
  induction ps with
  | nil =>
      intro s lo _ _
      simp [run_interleaver]
  | cons p ps ih =>
      intro s lo hinv hmono
      simp only [monoInput] at hmono
      have hq : apply_packet_offset s.video_offset s.audio_offsets p
          = apply_interleaved_packet_offset s p := rfl
      rw [hq] at hmono
      cases hqt : (apply_interleaved_packet_offset s p).ptype with
      | video =>
          rw [hqt] at hmono
          simp only [Bool.and_eq_true, decide_eq_true_eq] at hmono
          obtain ⟨h1, h2⟩ := hmono
          obtain ⟨lo', hlole, hinv', hvo, hao, hmkv, hmka, hemit, hnone⟩ :=
            steady_step s lo p mixes hinv (fun _ => h1)
              (fun h => by rw [hqt] at h; cases h)
          have hmono' : monoInput
              (interleave_packets s mixes p).1.video_offset
              (interleave_packets s mixes p).1.audio_offsets
              (interleave_packets s mixes p).1.highest_video_ts
              (interleave_packets s mixes p).1.highest_audio_ts ps = true := by
            rw [hvo, hao, (hmkv hqt).1, (hmkv hqt).2]
            exact h2
          obtain ⟨hchain, hbound⟩ := ih (interleave_packets s mixes p).1 lo' hinv' hmono'
          constructor
          · show List.Pairwise _ ((interleave_packets s mixes p).2.toList
              ++ (run_interleaver (interleave_packets s mixes p).1 mixes ps).2)
            cases hem : (interleave_packets s mixes p).2 with
            | none => simpa using hchain
            | some e0 =>
                simp only [Option.toList_some, List.singleton_append]
                refine List.Pairwise.cons ?_ hchain
                intro b hb
                rw [hemit e0 hem]
                exact hbound b hb
          · show ∀ e ∈ ((interleave_packets s mixes p).2.toList
              ++ (run_interleaver (interleave_packets s mixes p).1 mixes ps).2),
              lo ≤ e.dts_usec
            intro e he
            rcases List.mem_append.mp he with he1 | he1
            · cases hem : (interleave_packets s mixes p).2 with
              | none => rw [hem] at he1; cases he1
              | some e0 =>
                  rw [hem] at he1
                  rcases List.mem_singleton.mp he1 with rfl
                  rw [hemit e hem]
                  exact hlole
            · exact le_trans hlole (hbound e he1)
      | audio =>
          rw [hqt] at hmono
          simp only [Bool.and_eq_true, decide_eq_true_eq] at hmono
          obtain ⟨h1, h2⟩ := hmono
          obtain ⟨lo', hlole, hinv', hvo, hao, hmkv, hmka, hemit, hnone⟩ :=
            steady_step s lo p mixes hinv
              (fun h => by rw [hqt] at h; cases h) (fun _ => h1)
          have hmono' : monoInput
              (interleave_packets s mixes p).1.video_offset
              (interleave_packets s mixes p).1.audio_offsets
              (interleave_packets s mixes p).1.highest_video_ts
              (interleave_packets s mixes p).1.highest_audio_ts ps = true := by
            rw [hvo, hao, (hmka hqt).1, (hmka hqt).2]
            exact h2
          obtain ⟨hchain, hbound⟩ := ih (interleave_packets s mixes p).1 lo' hinv' hmono'
          constructor
          · show List.Pairwise _ ((interleave_packets s mixes p).2.toList
              ++ (run_interleaver (interleave_packets s mixes p).1 mixes ps).2)
            cases hem : (interleave_packets s mixes p).2 with
            | none => simpa using hchain
            | some e0 =>
                simp only [Option.toList_some, List.singleton_append]
                refine List.Pairwise.cons ?_ hchain
                intro b hb
                rw [hemit e0 hem]
                exact hbound b hb
          · show ∀ e ∈ ((interleave_packets s mixes p).2.toList
              ++ (run_interleaver (interleave_packets s mixes p).1 mixes ps).2),
              lo ≤ e.dts_usec
            intro e he
            rcases List.mem_append.mp he with he1 | he1
            · cases hem : (interleave_packets s mixes p).2 with
              | none => rw [hem] at he1; cases he1
              | some e0 =>
                  rw [hem] at he1
                  rcases List.mem_singleton.mp he1 with rfl
                  rw [hemit e hem]
                  exact hlole
            · exact le_trans hlole (hbound e he1)

/-- Claim C1 (amended).  After initialization, for inputs whose rebased
`dts_usec` is per-type monotone — which the per-encoder non-decreasing
`dts` guarantee gives when there is a single audio track — the packets
handed to the sink have non-decreasing `dts_usec`.  (The guard compares
against the opposing type's high-water mark, not a buffered packet; with
several independently-timed audio tracks the property fails, see the
counterexample.) -/
theorem interleaver_steady_emission_monotone (mixes : Nat) (ps : List Packet)
    (s : InterleaveState) (lo : Int) (hinv : SteadyInv s lo)
    (hmono : monoInput s.video_offset s.audio_offsets
      s.highest_video_ts s.highest_audio_ts ps = true) :
    List.Pairwise (fun a b : Packet => a.dts_usec ≤ b.dts_usec)
      (run_interleaver s mixes ps).2 :=
  (steady_run mixes ps s lo hinv hmono).1

/-- Witness for the amended C1 theorem: a freshly initialized steady
state fed one audio track interleaved with video. -/
theorem interleaver_steady_emission_monotone_witness :
    List.Pairwise (fun a b : Packet => a.dts_usec ≤ b.dts_usec)
      (run_interleaver ⟨[], true, true, 0, 0, 0, fun _ => 0⟩ 1
        [usecV 10, usecA 0 20, usecV 30]).2 :=
  interleaver_steady_emission_monotone 1 [usecV 10, usecA 0 20, usecV 30]
    ⟨[], true, true, 0, 0, 0, fun _ => 0⟩ 0
    ⟨rfl, rfl, List.Pairwise.nil, by simp, by simp, by simp,
     le_refl 0, le_refl 0⟩
    (by decide)

/-- A full trace through initialization with two audio tracks: aligned
first packets (all at 0), then track-0 audio running 100 µs ahead while
track-1 audio stays behind. -/
def c1_trace : List Packet :=
  [usecV 0, usecA 0 0, usecA 1 0, usecA 0 100, usecV 50, usecV 60,
   usecV 70, usecA 0 110, usecA 0 120, usecA 1 10]

/-- Claim C1 (counterexample).  On `c1_trace` — where every encoder's own
`dts` sequence is non-decreasing — the packets handed to the sink after
initialization carry `dts_usec` 0, 0, 0, 50, 60, 70, 10: not
non-decreasing.  Moreover the final emission (the track-1 audio packet at
10) happens from a buffer containing no video packet at all, so the
guard's "opposing packet of greater `dts_usec`" is the high-water mark of
already-emitted video, not a buffered packet. -/
theorem interleaver_emission_not_monotone :
    ((run_interleaver initial_interleave_state 2 c1_trace).2.map Packet.dts_usec)
      = [0, 0, 0, 50, 60, 70, 10]
    ∧ ¬ List.Pairwise (fun a b : Int => a ≤ b) [(0:Int), 0, 0, 50, 60, 70, 10]
    ∧ ((run_interleaver initial_interleave_state 2
          (c1_trace.take 9)).1.interleaved_packets.all
        fun r => r.ptype == PacketType.audio) = true
    ∧ (interleave_packets (run_interleaver initial_interleave_state 2
          (c1_trace.take 9)).1 2 (usecA 1 10)).2.isSome = true := by
  refine ⟨by decide, by decide, by decide, by decide⟩
